import Mathlib

/-!
# wM-Bus / OMS Mode 5 telegram decryption: embedding of `src/main.cpp`

The C++ program builds a 16-byte IV from the telegram header (`construct_iv`),
copies the ciphertext region (from byte 25 on) into a zero-filled buffer whose
size is rounded up to the AES block size, decrypts that buffer in place with
AES-128-CBC and finally resizes it to `FINAL_PAYLOAD_LEN`.

* `uint8_t` is `Fin 256`; `std::vector<uint8_t>` is `List Byte`.
* `size_t` arithmetic is arithmetic on `Nat` reduced modulo `2 ^ 64`.
* `throw` / `return 1` / an invalid iterator range are values of `Failure`.
* The AES routines of `aes-lib/aes.h` are not part of the repository sources;
  the in-place CBC decryption is a parameter `cipher key iv buffer`.
-/

set_option maxRecDepth 8000

namespace WMBus

/-- The type `uint8_t`. -/
abbrev Byte := Fin 256

/-- Ways in which the program does not reach "Decryption Successful". -/
inductive Failure where
  /-- Thrown by `construct_iv`: "Telegram too short to construct IV." (`main` prints
  "IV construction failed" and returns 1). -/
  | ivTelegramTooShort
  /-- The branch `"Error: Telegram is truncated. Cannot proceed with decryption."`. -/
  | telegramTruncated
  /-- The iterator range given to `std::copy` in `main` is not a valid range of the
  telegram (or does not fit the destination): undefined behaviour in C++. -/
  | invalidCopyRange
  deriving DecidableEq, Repr

/-- Number of values of `size_t` (64-bit). -/
def SIZE_MOD : Nat := 2 ^ 64

/-- Unsigned 64-bit addition. -/
def size_add (a b : Nat) : Nat := (a + b) % SIZE_MOD

/-- Unsigned 64-bit subtraction: `a - b` modulo `2 ^ 64` (wraps around below zero), computed
as the sum of the complement `2 ^ 64 - b` of `b` and `a` (the operand that may be symbolic
comes last, so that unfolding the sum stops at it). -/
def size_sub (a b : Nat) : Nat := ((SIZE_MOD - b % SIZE_MOD) + a % SIZE_MOD) % SIZE_MOD

/-- Unsigned 64-bit multiplication. -/
def size_mul (a b : Nat) : Nat := (a * b) % SIZE_MOD

/-- Unsigned 64-bit division. -/
def size_div (a b : Nat) : Nat := (a % SIZE_MOD) / (b % SIZE_MOD)

/-- The key `DECRYPTION_KEY` of the program. -/
def DECRYPTION_KEY : List Byte :=
  [0x42, 0x55, 0x79, 0x4D, 0x3D, 0xCC, 0xFD, 0x46,
   0x95, 0x31, 0x46, 0xE7, 0x01, 0xB7, 0xDB, 0x68]

/-- The sample telegram `TELEGRAM_MSG` of the program. -/
def TELEGRAM_MSG : List Byte :=
  [0xa1, 0x44, 0xc5, 0x14, 0x27, 0x85, 0x89, 0x50, 0x70, 0x07, 0x8c, 0x20, 0x60, 0x7a, 0x9d, 0x00,
   0x90, 0x25, 0x37, 0xca, 0x23, 0x1f, 0xa2, 0xda, 0x58, 0x89, 0xbe, 0x8d, 0xf3, 0x67, 0x3e, 0xc1,
   0x36, 0xae, 0xbf, 0xb8, 0x0d, 0x4c, 0xe3, 0x95, 0xba, 0x98, 0xf6, 0xb3, 0x84, 0x4a, 0x11, 0x5e,
   0x4b, 0xe1, 0xb1, 0xc9, 0xf0, 0x05, 0xaf, 0xa8, 0x36, 0x63, 0x52, 0xf3, 0x3a, 0x66, 0xbe, 0x32,
   0x1c, 0x20, 0x04, 0x10, 0x3b, 0x51, 0xfa, 0x7b, 0x84, 0xb1, 0x37, 0x00, 0x52, 0x5c, 0x6f, 0x8c,
   0x17, 0x79, 0x79, 0x27, 0x53, 0x1d, 0x58, 0x8d, 0xc9, 0x14, 0x4c, 0x48, 0x51, 0x77, 0x8c, 0x52,
   0x41, 0x2a, 0x7b, 0x8e, 0xf7, 0x81, 0x7a, 0x82, 0x18, 0x2a, 0x38, 0x21, 0x53, 0xb1, 0xc2, 0x36,
   0x0a, 0x74, 0x55, 0x7b, 0x0f, 0x48, 0x08, 0x5a, 0x44, 0x06, 0x74, 0x29, 0x53, 0xf0, 0x01, 0x46,
   0x95, 0xf2, 0x99, 0x74, 0x51, 0x57, 0x06, 0xdb, 0x03, 0x2d, 0x8d, 0x98, 0xc9, 0x92, 0x6e, 0x1c,
   0x93, 0x84, 0x49, 0x08, 0xd0, 0x9c, 0x56, 0x89, 0x76, 0x86, 0xd9, 0x47, 0xf7, 0x4b, 0x9d, 0x19,
   0x54, 0x72]

/-- The range constructor `std::vector<uint8_t>(v.begin() + first, v.begin() + last)`. -/
def vector_range (v : List Byte) (first last : Nat) : List Byte :=
  (v.drop first).take (last - first)

/-- The algorithm `std::copy(src.begin(), src.end(), dst.begin() + pos)`: the elements of
`src` are assigned one after the other to `dst[pos]`, `dst[pos + 1]`, ... -/
def std_copy : List Byte → List Byte → Nat → List Byte
  | [], dst, _ => dst
  | b :: rest, dst, pos => std_copy rest (dst.set pos b) (pos + 1)

/-- The constructor `std::vector<uint8_t>(n, 0x00)`. -/
def vector_fill (n : Nat) : List Byte := List.replicate n 0

/-- The member `std::vector::resize(n)`: truncates, or appends value-initialised
(zero) elements. -/
def vector_resize (v : List Byte) (n : Nat) : List Byte :=
  if n ≤ v.length then v.take n else v ++ List.replicate (n - v.length) 0

/-- The function `construct_iv` (main.cpp, lines 47-68). -/
def construct_iv (telegram : List Byte) : Except Failure (List Byte) :=
  if telegram.length < 12 then
    .error .ivTelegramTooShort
  else
    let device_id_bytes := (vector_range telegram 2 10).reverse
    let access_num_bytes := (vector_range telegram 10 12).reverse
    let iv := vector_fill 16
    let iv := std_copy device_id_bytes iv 0
    let iv := std_copy access_num_bytes iv 8
    .ok iv

/-- The constant `ENCRYPTED_DATA_START`. -/
def ENCRYPTED_DATA_START : Nat := 25

/-- The constant `BLOCK_SIZE`. -/
def BLOCK_SIZE : Nat := 16

/-- The constant `FINAL_PAYLOAD_LEN`. -/
def FINAL_PAYLOAD_LEN : Nat := 129

/-- The value `ENCRYPTED_DATA_LEN = telegram.size() - ENCRYPTED_DATA_START` for a telegram of
the given size. -/
def ENCRYPTED_DATA_LEN (size : Nat) : Nat := size_sub size ENCRYPTED_DATA_START

/-- The value `PADDED_SIZE = ((ENCRYPTED_DATA_LEN + BLOCK_SIZE - 1) / BLOCK_SIZE) * BLOCK_SIZE`
for a telegram of the given size. -/
def PADDED_SIZE (size : Nat) : Nat :=
  size_mul (size_div (size_sub (size_add (ENCRYPTED_DATA_LEN size) BLOCK_SIZE) 1) BLOCK_SIZE)
    BLOCK_SIZE

/-- Step 2 of `main` (lines 87-108): the buffer `temp_decrypted` as it is handed to the
cipher. -/
def padded_buffer (telegram : List Byte) : Except Failure (List Byte) :=
  let len := ENCRYPTED_DATA_LEN telegram.length
  let temp_decrypted := vector_fill (PADDED_SIZE telegram.length)
  if telegram.length ≥ size_add ENCRYPTED_DATA_START len then
    -- `telegram.begin() + 25` and `telegram.begin() + 25 + len` must delimit a range of the
    -- telegram, and the destination must have room for it
    if ENCRYPTED_DATA_START ≤ telegram.length ∧ ENCRYPTED_DATA_START + len ≤ telegram.length
        ∧ len ≤ temp_decrypted.length then
      .ok (std_copy (vector_range telegram ENCRYPTED_DATA_START (ENCRYPTED_DATA_START + len))
            temp_decrypted 0)
    else
      .error .invalidCopyRange
  else
    .error .telegramTruncated

/-- The body of `main` (lines 71-119) as a function of the key, the telegram and the
in-place AES-CBC decryption `cipher key iv buffer`; the result is `temp_decrypted` after the
final `resize`. -/
def main_pipeline (cipher : List Byte → List Byte → List Byte → List Byte)
    (key telegram : List Byte) : Except Failure (List Byte) :=
  match construct_iv telegram with
  | .error e => .error e
  | .ok iv =>
    match padded_buffer telegram with
    | .error e => .error e
    | .ok temp_decrypted =>
      .ok (vector_resize (cipher key iv temp_decrypted) FINAL_PAYLOAD_LEN)

/-- A stand-in cipher that leaves the buffer as it is, used to evaluate the pipeline on
concrete telegrams. -/
def identity_cipher (_key _iv buffer : List Byte) : List Byte := buffer

/-- The sample telegram with its L-field (first byte) overwritten by `0x00`, which is not
the telegram length minus one. -/
def TELEGRAM_WRONG_L : List Byte := TELEGRAM_MSG.set 0 0x00

/-- The sample telegram extended by one byte, with the L-field adjusted to `0xA2 = 162`. -/
def TELEGRAM_LONGER : List Byte := TELEGRAM_MSG.set 0 0xA2 ++ [0x00]

/-- The first 33 bytes of the sample telegram with the L-field adjusted to `0x20 = 32`: the
ciphertext region has exactly 8 bytes. -/
def TELEGRAM_SHORT : List Byte := (TELEGRAM_MSG.take 33).set 0 0x20

/-- The sample telegram with the first access-number byte (index 10) changed from `0x8c`
to `0x8d`. -/
def TELEGRAM_NEXT_ACCESS : List Byte := TELEGRAM_MSG.set 10 0x8d

/-- A cipher that behaves as `cipher` when the IV has 16 bytes and returns an empty buffer
otherwise. -/
def iv_checked_cipher (cipher : List Byte → List Byte → List Byte → List Byte)
    (key iv buffer : List Byte) : List Byte :=
  if iv.length = 16 then cipher key iv buffer else []

/-- The first 12 bytes of the sample telegram with the L-field adjusted to `0x0B = 11`: the
header bytes read by `construct_iv` and nothing more. -/
def TELEGRAM_HEADER_ONLY : List Byte := (TELEGRAM_MSG.take 12).set 0 0x0B

/-- The first 24 bytes of the sample telegram with the L-field adjusted to `0x17 = 23`. -/
def TELEGRAM_NO_REGION : List Byte := (TELEGRAM_MSG.take 24).set 0 0x17

/-- The first 40 bytes of the sample telegram with the L-field adjusted to `0x27 = 39`: one
byte less than 25 header bytes plus one cipher block. -/
def TELEGRAM_BELOW_BLOCK : List Byte := (TELEGRAM_MSG.take 40).set 0 0x27

/-- The first 41 bytes of the sample telegram with the L-field adjusted to `0x28 = 40`: the
ciphertext region is exactly one cipher block. -/
def TELEGRAM_ONE_BLOCK : List Byte := (TELEGRAM_MSG.take 41).set 0 0x28

/-- A 14-byte telegram with another L-field, C-field and tail than the sample telegram but
the same bytes at the indices 2..11. -/
def TELEGRAM_SAME_HEADER : List Byte :=
  [0x0D, 0x00] ++ (TELEGRAM_MSG.drop 2).take 10 ++ [0xFF, 0xEE]

/-! ## Lemmas on the building blocks -/

theorem std_copy_length (src : List Byte) : ∀ (dst : List Byte) (pos : Nat),
    (std_copy src dst pos).length = dst.length := by
  induction src with
  | nil => intro dst pos; rfl
  | cons b rest ih => intro dst pos; simp [std_copy, ih]

theorem exists_twelve_bytes (t : List Byte) (h : 12 ≤ t.length) :
    ∃ a0 a1 a2 a3 a4 a5 a6 a7 a8 a9 a10 a11 rest,
      t = a0 :: a1 :: a2 :: a3 :: a4 :: a5 :: a6 :: a7 :: a8 :: a9 :: a10 :: a11 :: rest := by
  match t, h with
  | a0 :: a1 :: a2 :: a3 :: a4 :: a5 :: a6 :: a7 :: a8 :: a9 :: a10 :: a11 :: rest, _ =>
    exact ⟨a0, a1, a2, a3, a4, a5, a6, a7, a8, a9, a10, a11, rest, rfl⟩

theorem construct_iv_cons (a0 a1 a2 a3 a4 a5 a6 a7 a8 a9 a10 a11 : Byte) (rest : List Byte) :
    construct_iv (a0 :: a1 :: a2 :: a3 :: a4 :: a5 :: a6 :: a7 :: a8 :: a9 :: a10 :: a11 :: rest)
      = .ok [a9, a8, a7, a6, a5, a4, a3, a2, a11, a10, 0, 0, 0, 0, 0, 0] := by
  simp [construct_iv, vector_range, vector_fill, std_copy, List.replicate]

theorem std_copy_eq (src : List Byte) : ∀ (dst : List Byte) (pos : Nat),
    pos + src.length ≤ dst.length →
    std_copy src dst pos = dst.take pos ++ src ++ dst.drop (pos + src.length) := by
  induction src with
  | nil => intro dst pos _; simp [std_copy]
  | cons b rest ih =>
    intro dst pos h
    simp only [List.length_cons] at h
    have hpos : pos < dst.length := by omega
    rw [std_copy, ih (dst.set pos b) (pos + 1) (by simp; omega)]
    have h1 : List.take (pos + 1) (dst.set pos b) = List.take pos dst ++ [b] := by
      rw [List.take_succ, List.set_take,
        List.set_eq_of_length_le (by simp), List.getElem?_set_self hpos]
      rfl
    have h2 : List.drop (pos + 1 + rest.length) (dst.set pos b)
        = List.drop (pos + (rest.length + 1)) dst := by
      rw [List.drop_set_of_lt _ _ (by omega)]
      congr 1
      omega
    rw [h1, h2]
    simp

theorem vector_resize_length (v : List Byte) (n : Nat) : (vector_resize v n).length = n := by
  unfold vector_resize
  split
  · simp; omega
  · simp; omega

theorem ENCRYPTED_DATA_LEN_eq (n : Nat) (h25 : 25 ≤ n) (hsize : n < 2 ^ 64) :
    ENCRYPTED_DATA_LEN n = n - 25 := by
  simp only [ENCRYPTED_DATA_LEN, size_sub, SIZE_MOD, ENCRYPTED_DATA_START]
  omega

theorem PADDED_SIZE_eq (n : Nat) (h25 : 25 ≤ n) (hsize : n < 2 ^ 64) :
    PADDED_SIZE n = (n - 25 + 15) / 16 * 16 := by
  unfold PADDED_SIZE
  rw [ENCRYPTED_DATA_LEN_eq n h25 hsize]
  simp only [size_mul, size_div, size_sub, size_add, SIZE_MOD, BLOCK_SIZE, Nat.reducePow,
    Nat.reduceMod]
  omega

theorem padded_buffer_eq (t : List Byte) (h25 : 25 ≤ t.length) (hsize : t.length < 2 ^ 64) :
    padded_buffer t
      = .ok (t.drop 25 ++ List.replicate (PADDED_SIZE t.length - (t.length - 25)) 0) := by
  have hL := ENCRYPTED_DATA_LEN_eq t.length h25 hsize
  have hP := PADDED_SIZE_eq t.length h25 hsize
  have hle : t.length - 25 ≤ PADDED_SIZE t.length := by rw [hP]; omega
  unfold padded_buffer
  simp only [hL, ENCRYPTED_DATA_START, vector_fill, List.length_replicate, size_add, SIZE_MOD]
  have hguard : t.length ≥ (25 + (t.length - 25)) % 2 ^ 64 := by omega
  have hrange : 25 ≤ t.length ∧ 25 + (t.length - 25) ≤ t.length ∧
      t.length - 25 ≤ PADDED_SIZE t.length := ⟨h25, by omega, hle⟩
  rw [if_pos hguard, if_pos hrange]
  have hsrc : vector_range t 25 (25 + (t.length - 25)) = t.drop 25 := by
    unfold vector_range
    apply List.take_of_length_le
    simp
  rw [hsrc, std_copy_eq _ _ _ (by simp; omega)]
  simp

theorem construct_iv_ok (t : List Byte) (h : 12 ≤ t.length) :
    ∃ iv, construct_iv t = .ok iv ∧ iv.length = 16 := by
  obtain ⟨a0, a1, a2, a3, a4, a5, a6, a7, a8, a9, a10, a11, rest, rfl⟩ :=
    exists_twelve_bytes t h
  exact ⟨_, construct_iv_cons .., rfl⟩

theorem main_pipeline_eq (cipher : List Byte → List Byte → List Byte → List Byte)
    (key t : List Byte) (h25 : 25 ≤ t.length) (hsize : t.length < 2 ^ 64) :
    ∃ iv, construct_iv t = .ok iv ∧
      main_pipeline cipher key t = .ok (vector_resize (cipher key iv
        (t.drop 25 ++ List.replicate (PADDED_SIZE t.length - (t.length - 25)) 0))
        FINAL_PAYLOAD_LEN) := by
  obtain ⟨iv, hiv, _⟩ := construct_iv_ok t (by omega)
  refine ⟨iv, hiv, ?_⟩
  simp only [main_pipeline, hiv, padded_buffer_eq t h25 hsize]

theorem main_pipeline_ok_length (cipher : List Byte → List Byte → List Byte → List Byte)
    (key t p : List Byte) (h : main_pipeline cipher key t = .ok p) :
    p.length = FINAL_PAYLOAD_LEN := by
  unfold main_pipeline at h
  cases hiv : construct_iv t with
  | error e => simp only [hiv, reduceCtorEq] at h
  | ok iv =>
    cases hbuf : padded_buffer t with
    | error e => simp only [hiv, hbuf, reduceCtorEq] at h
    | ok buf =>
      simp only [hiv, hbuf, Except.ok.injEq] at h
      rw [← h]
      exact vector_resize_length _ _

theorem sample_length : TELEGRAM_MSG.length = 162 := by rfl

theorem construct_iv_set_zero (t : List Byte) (b : Byte) :
    construct_iv (t.set 0 b) = construct_iv t := by
  cases t with
  | nil => rfl
  | cons a rest =>
    simp only [construct_iv, vector_range, List.set_cons_zero, List.length_cons]
    rfl

theorem padded_buffer_set_zero (t : List Byte) (b : Byte) :
    padded_buffer (t.set 0 b) = padded_buffer t := by
  cases t with
  | nil => rfl
  | cons a rest =>
    simp only [padded_buffer, vector_range, List.set_cons_zero, List.length_cons,
      ENCRYPTED_DATA_START]
    rfl

theorem main_pipeline_set_zero (cipher : List Byte → List Byte → List Byte → List Byte)
    (key t : List Byte) (b : Byte) :
    main_pipeline cipher key (t.set 0 b) = main_pipeline cipher key t := by
  simp only [main_pipeline, construct_iv_set_zero, padded_buffer_set_zero]

theorem padded_buffer_length (t : List Byte) (h25 : 25 ≤ t.length) (hsize : t.length < 2 ^ 64) :
    (t.drop 25 ++ List.replicate (PADDED_SIZE t.length - (t.length - 25)) (0 : Byte)).length
      = PADDED_SIZE t.length := by
  have hP := PADDED_SIZE_eq t.length h25 hsize
  simp only [List.length_append, List.length_drop, List.length_replicate]
  omega

theorem construct_iv_short (t : List Byte) (h : t.length < 12) :
    construct_iv t = .error .ivTelegramTooShort := by
  simp only [construct_iv, if_pos h]

theorem padded_buffer_error_ne (t : List Byte) :
    padded_buffer t ≠ .error .ivTelegramTooShort := by
  unfold padded_buffer
  dsimp only
  split
  · split
    · exact fun h => by simp only [reduceCtorEq] at h
    · exact fun h => by simp only [Except.error.injEq, reduceCtorEq] at h
  · exact fun h => by simp only [Except.error.injEq, reduceCtorEq] at h

theorem header_eq_of_iv_eq (t1 t2 : List Byte) (h1 : 12 ≤ t1.length) (h2 : 12 ≤ t2.length)
    (h : construct_iv t1 = construct_iv t2) (i : Nat) (hlo : 2 ≤ i) (hhi : i ≤ 11) :
    t1[i]? = t2[i]? := by
  obtain ⟨a0, a1, a2, a3, a4, a5, a6, a7, a8, a9, a10, a11, r1, rfl⟩ :=
    exists_twelve_bytes t1 h1
  obtain ⟨b0, b1, b2, b3, b4, b5, b6, b7, b8, b9, b10, b11, r2, rfl⟩ :=
    exists_twelve_bytes t2 h2
  rw [construct_iv_cons, construct_iv_cons] at h
  simp only [Except.ok.injEq, List.cons.injEq, and_true] at h
  obtain ⟨e9, e8, e7, e6, e5, e4, e3, e2, e11, e10⟩ := h
  subst e2 e3 e4 e5 e6 e7 e8 e9 e10 e11
  interval_cases i <;> simp

theorem guard_sum_eq (n : Nat) :
    size_add ENCRYPTED_DATA_START (ENCRYPTED_DATA_LEN n) = n % 2 ^ 64 := by
  simp only [ENCRYPTED_DATA_LEN, size_add, size_sub, SIZE_MOD, ENCRYPTED_DATA_START,
    Nat.reducePow, Nat.reduceMod]
  omega

theorem guard_holds (n : Nat) :
    n ≥ size_add ENCRYPTED_DATA_START (ENCRYPTED_DATA_LEN n) := by
  rw [guard_sum_eq]
  exact Nat.mod_le n _

theorem ENCRYPTED_DATA_LEN_wrap (n : Nat) (h : n < 25) :
    ENCRYPTED_DATA_LEN n = 2 ^ 64 - (25 - n) := by
  simp only [ENCRYPTED_DATA_LEN, size_sub, SIZE_MOD, ENCRYPTED_DATA_START, Nat.reducePow,
    Nat.reduceMod]
  omega

theorem PADDED_SIZE_wrap (n : Nat) (h12 : 12 ≤ n) (h : n < 25) : PADDED_SIZE n = 0 := by
  unfold PADDED_SIZE
  rw [ENCRYPTED_DATA_LEN_wrap n h]
  simp only [size_mul, size_div, size_sub, size_add, SIZE_MOD, BLOCK_SIZE, Nat.reducePow,
    Nat.reduceMod]
  omega

theorem padded_buffer_not_truncated (t : List Byte) :
    padded_buffer t ≠ .error .telegramTruncated := by
  unfold padded_buffer
  dsimp only
  rw [if_pos (guard_holds t.length)]
  split
  · exact fun h => by simp only [reduceCtorEq] at h
  · exact fun h => by simp only [Except.error.injEq, reduceCtorEq] at h

theorem padded_buffer_below_start (t : List Byte) (h : t.length < 25) :
    padded_buffer t = .error .invalidCopyRange := by
  unfold padded_buffer
  dsimp only
  rw [if_pos (guard_holds t.length), if_neg]
  simp only [ENCRYPTED_DATA_START]
  omega

theorem main_pipeline_ok_ge (cipher : List Byte → List Byte → List Byte → List Byte)
    (key t p : List Byte) (h : main_pipeline cipher key t = .ok p) : 25 ≤ t.length := by
  by_cases h12 : t.length < 12
  · simp only [main_pipeline, construct_iv_short t h12, reduceCtorEq] at h
  · by_cases h25 : t.length < 25
    · obtain ⟨iv, hiv, _⟩ := construct_iv_ok t (by omega)
      simp only [main_pipeline, hiv, padded_buffer_below_start t h25, reduceCtorEq] at h
    · omega

theorem iv_eq_of_header_eq (t1 t2 : List Byte) (h1 : 12 ≤ t1.length) (h2 : 12 ≤ t2.length)
    (h : ∀ i, 2 ≤ i → i ≤ 11 → t1[i]? = t2[i]?) : construct_iv t1 = construct_iv t2 := by
  obtain ⟨a0, a1, a2, a3, a4, a5, a6, a7, a8, a9, a10, a11, r1, rfl⟩ :=
    exists_twelve_bytes t1 h1
  obtain ⟨b0, b1, b2, b3, b4, b5, b6, b7, b8, b9, b10, b11, r2, rfl⟩ :=
    exists_twelve_bytes t2 h2
  have e2 := h 2 (by omega) (by omega)
  have e3 := h 3 (by omega) (by omega)
  have e4 := h 4 (by omega) (by omega)
  have e5 := h 5 (by omega) (by omega)
  have e6 := h 6 (by omega) (by omega)
  have e7 := h 7 (by omega) (by omega)
  have e8 := h 8 (by omega) (by omega)
  have e9 := h 9 (by omega) (by omega)
  have e10 := h 10 (by omega) (by omega)
  have e11 := h 11 (by omega) (by omega)
  simp only [List.getElem?_cons_succ, List.getElem?_cons_zero, Option.some.injEq]
    at e2 e3 e4 e5 e6 e7 e8 e9 e10 e11
  subst e2 e3 e4 e5 e6 e7 e8 e9 e10 e11
  rw [construct_iv_cons, construct_iv_cons]

/-! ## Claims -/

/-- C1: for every telegram of at least 12 bytes `construct_iv` returns the sixteen bytes
`t[9], t[8], ..., t[2]` (identity, reversed), `t[11], t[10]` (access number, reversed) and
six zero bytes. -/
theorem construct_iv_layout (t : List Byte) (h : 12 ≤ t.length) :
    construct_iv t = .ok [t[9], t[8], t[7], t[6], t[5], t[4], t[3], t[2], t[11], t[10],
      0, 0, 0, 0, 0, 0] := by
  obtain ⟨a0, a1, a2, a3, a4, a5, a6, a7, a8, a9, a10, a11, rest, rfl⟩ :=
    exists_twelve_bytes t h
  rw [construct_iv_cons]
  rfl

theorem construct_iv_layout_witness :
    12 ≤ ([0, 1, 2, 3, 4, 5, 6, 7, 8, 9, 10, 11, 12] : List Byte).length ∧
    construct_iv [0, 1, 2, 3, 4, 5, 6, 7, 8, 9, 10, 11, 12]
      = .ok [9, 8, 7, 6, 5, 4, 3, 2, 11, 10, 0, 0, 0, 0, 0, 0] :=
  ⟨by decide, construct_iv_layout [0, 1, 2, 3, 4, 5, 6, 7, 8, 9, 10, 11, 12] (by decide)⟩

/-- C2: on the reference sample `TELEGRAM_MSG` (162 bytes, first byte 0xA1 = 161) the IV is
`07 70 50 89 85 27 14 C5 20 8C 00 00 00 00 00 00`, `ENCRYPTED_DATA_LEN` is 137, `PADDED_SIZE`
is 144, the buffer handed to the cipher has 144 bytes, and the final payload has
129 = 137 - 8 bytes. -/
theorem sample_scenario :
    TELEGRAM_MSG.length = 162 ∧ TELEGRAM_MSG[0]? = some 0xA1 ∧
    (0xA1 : Byte).val = TELEGRAM_MSG.length - 1 ∧
    construct_iv TELEGRAM_MSG
      = .ok [0x07, 0x70, 0x50, 0x89, 0x85, 0x27, 0x14, 0xC5, 0x20, 0x8C, 0, 0, 0, 0, 0, 0] ∧
    ENCRYPTED_DATA_LEN TELEGRAM_MSG.length = 137 ∧
    PADDED_SIZE TELEGRAM_MSG.length = 144 ∧
    (∃ buf, padded_buffer TELEGRAM_MSG = .ok buf ∧ buf.length = 144) ∧
    (∀ cipher, ∃ p, main_pipeline cipher DECRYPTION_KEY TELEGRAM_MSG = .ok p ∧
      p.length = 129 ∧ p.length = ENCRYPTED_DATA_LEN TELEGRAM_MSG.length - 8) := by
  have hlen : TELEGRAM_MSG.length = 162 := sample_length
  have hL : ENCRYPTED_DATA_LEN 162 = 137 := by decide
  have hP : PADDED_SIZE 162 = 144 := by decide
  have hiv : construct_iv TELEGRAM_MSG
      = .ok [0x07, 0x70, 0x50, 0x89, 0x85, 0x27, 0x14, 0xC5, 0x20, 0x8C, 0, 0, 0, 0, 0, 0] := by
    unfold TELEGRAM_MSG
    rw [construct_iv_cons]
  have h0 : TELEGRAM_MSG[0]? = some 0xA1 := by
    unfold TELEGRAM_MSG
    rfl
  rw [hlen]
  refine ⟨rfl, h0, by decide, hiv, hL, hP, ?_, ?_⟩
  · refine ⟨_, padded_buffer_eq TELEGRAM_MSG (by rw [hlen]; omega) (by rw [hlen]; omega), ?_⟩
    simp only [List.length_append, List.length_drop, List.length_replicate, hlen, hP]
  · intro cipher
    obtain ⟨iv, _, hmain⟩ := main_pipeline_eq cipher DECRYPTION_KEY TELEGRAM_MSG
      (by rw [hlen]; omega) (by rw [hlen]; omega)
    refine ⟨_, hmain, ?_, ?_⟩
    · rw [vector_resize_length]; rfl
    · rw [vector_resize_length, hL]; rfl

/-- C3 (the claim as stated, refuted): the telegram `TELEGRAM_WRONG_L` has first byte 0 while
its length minus one is 161, and the pipeline nevertheless returns a payload. -/
theorem wrong_l_field_is_decrypted :
    TELEGRAM_WRONG_L[0]? = some 0 ∧ TELEGRAM_WRONG_L.length - 1 = 161 ∧
    main_pipeline identity_cipher DECRYPTION_KEY TELEGRAM_WRONG_L
      = .ok ((TELEGRAM_MSG.drop 25).take 129) :=
  ⟨rfl, rfl, rfl⟩

/-- C3 (amended): the pipeline never inspects the L-field. Every telegram of at least 25
bytes is decrypted into a payload whatever its first byte is, and overwriting the first byte
of a telegram by any value leaves the outcome of the pipeline unchanged. -/
theorem main_pipeline_ignores_l_field
    (cipher : List Byte → List Byte → List Byte → List Byte) (key t : List Byte)
    (h25 : 25 ≤ t.length) (hsize : t.length < 2 ^ 64) :
    (∃ p, main_pipeline cipher key t = .ok p) ∧
    ∀ b : Byte, main_pipeline cipher key (t.set 0 b) = main_pipeline cipher key t := by
  obtain ⟨iv, _, hmain⟩ := main_pipeline_eq cipher key t h25 hsize
  exact ⟨⟨_, hmain⟩, fun b => main_pipeline_set_zero cipher key t b⟩

theorem main_pipeline_ignores_l_field_witness :
    25 ≤ TELEGRAM_WRONG_L.length ∧ TELEGRAM_WRONG_L.length < 2 ^ 64 ∧
    ((∃ p, main_pipeline identity_cipher DECRYPTION_KEY TELEGRAM_WRONG_L = .ok p) ∧
      ∀ b : Byte, main_pipeline identity_cipher DECRYPTION_KEY (TELEGRAM_WRONG_L.set 0 b)
        = main_pipeline identity_cipher DECRYPTION_KEY TELEGRAM_WRONG_L) :=
  ⟨by decide, by decide,
    main_pipeline_ignores_l_field identity_cipher DECRYPTION_KEY TELEGRAM_WRONG_L
      (by decide) (by decide)⟩

/-- C4 (the claim as stated, refuted): the 163-byte telegram `TELEGRAM_LONGER` is accepted
and its payload has 129 bytes, not (163 - 25) - 8 = 130. -/
theorem longer_telegram_payload_length :
    TELEGRAM_LONGER.length = 163 ∧
    ∃ p, main_pipeline identity_cipher DECRYPTION_KEY TELEGRAM_LONGER = .ok p ∧
      p.length = 129 ∧ p.length ≠ (TELEGRAM_LONGER.length - 25) - 8 :=
  ⟨rfl, (TELEGRAM_MSG.drop 25).take 129, rfl, rfl, by decide⟩

/-- C4 (amended): for every telegram the pipeline accepts, the final payload has the fixed
length `FINAL_PAYLOAD_LEN` = 129; this equals (len(telegram) - 25) - 8 exactly when the
telegram has 162 bytes. -/
theorem final_payload_length_fixed
    (cipher : List Byte → List Byte → List Byte → List Byte) (key t p : List Byte)
    (h : main_pipeline cipher key t = .ok p) :
    p.length = FINAL_PAYLOAD_LEN ∧ FINAL_PAYLOAD_LEN = 129 ∧
    (p.length = (t.length - 25) - 8 ↔ t.length = 162) := by
  have hp := main_pipeline_ok_length cipher key t p h
  refine ⟨hp, rfl, ?_⟩
  rw [hp]
  simp only [FINAL_PAYLOAD_LEN]
  omega

theorem final_payload_length_fixed_witness :
    main_pipeline identity_cipher DECRYPTION_KEY TELEGRAM_MSG
      = .ok ((TELEGRAM_MSG.drop 25).take 129) ∧
    (((TELEGRAM_MSG.drop 25).take 129).length = FINAL_PAYLOAD_LEN ∧ FINAL_PAYLOAD_LEN = 129 ∧
      (((TELEGRAM_MSG.drop 25).take 129).length = (TELEGRAM_MSG.length - 25) - 8
        ↔ TELEGRAM_MSG.length = 162)) :=
  ⟨rfl, final_payload_length_fixed identity_cipher DECRYPTION_KEY TELEGRAM_MSG
    ((TELEGRAM_MSG.drop 25).take 129) rfl⟩

/-- C5: for every telegram of at least 25 bytes, with L = `ENCRYPTED_DATA_LEN` =
len(telegram) - 25, the buffer handed to the cipher has `PADDED_SIZE` = ((L + 15) / 16) * 16
bytes; this size is divisible by 16, satisfies L <= PADDED_SIZE < L + 16, is the least
multiple of 16 that is >= L, and equals L when L is a multiple of 16. -/
theorem padded_size_block_aligned (t : List Byte)
    (h25 : 25 ≤ t.length) (hsize : t.length < 2 ^ 64) :
    ENCRYPTED_DATA_LEN t.length = t.length - 25 ∧
    PADDED_SIZE t.length = ((ENCRYPTED_DATA_LEN t.length + 15) / 16) * 16 ∧
    (∀ cipher key, ∃ iv buf, construct_iv t = .ok iv ∧ padded_buffer t = .ok buf ∧
      buf.length = PADDED_SIZE t.length ∧
      main_pipeline cipher key t = .ok (vector_resize (cipher key iv buf) FINAL_PAYLOAD_LEN)) ∧
    PADDED_SIZE t.length % 16 = 0 ∧
    ENCRYPTED_DATA_LEN t.length ≤ PADDED_SIZE t.length ∧
    PADDED_SIZE t.length < ENCRYPTED_DATA_LEN t.length + 16 ∧
    (∀ m, m % 16 = 0 → ENCRYPTED_DATA_LEN t.length ≤ m → PADDED_SIZE t.length ≤ m) ∧
    (ENCRYPTED_DATA_LEN t.length % 16 = 0 →
      PADDED_SIZE t.length = ENCRYPTED_DATA_LEN t.length) := by
  have hL := ENCRYPTED_DATA_LEN_eq t.length h25 hsize
  have hP := PADDED_SIZE_eq t.length h25 hsize
  rw [hL, hP]
  refine ⟨rfl, rfl, ?_, by omega, by omega, by omega, fun m hm hle => by omega,
    fun h => by omega⟩
  intro cipher key
  obtain ⟨iv, hiv, hmain⟩ := main_pipeline_eq cipher key t h25 hsize
  refine ⟨iv, _, hiv, padded_buffer_eq t h25 hsize, ?_, hmain⟩
  rw [padded_buffer_length t h25 hsize, hP]

theorem padded_size_block_aligned_witness :
    25 ≤ TELEGRAM_MSG.length ∧ TELEGRAM_MSG.length < 2 ^ 64 ∧
    PADDED_SIZE TELEGRAM_MSG.length % 16 = 0 ∧
    ENCRYPTED_DATA_LEN TELEGRAM_MSG.length ≤ PADDED_SIZE TELEGRAM_MSG.length ∧
    PADDED_SIZE TELEGRAM_MSG.length < ENCRYPTED_DATA_LEN TELEGRAM_MSG.length + 16 :=
  have h := padded_size_block_aligned TELEGRAM_MSG (by decide) (by decide)
  ⟨by decide, by decide, h.2.2.2.1, h.2.2.2.2.1, h.2.2.2.2.2.1⟩

/-- C6: for every telegram of at least 25 bytes the buffer handed to the cipher is the
telegram from index 25 to its end, unchanged and in order, followed by zero bytes up to
`PADDED_SIZE`: byte i is telegram[25 + i] for i < len(telegram) - 25 and 0 for every other
i < `PADDED_SIZE`. -/
theorem padded_buffer_contents (t : List Byte)
    (h25 : 25 ≤ t.length) (hsize : t.length < 2 ^ 64) :
    ∃ buf, padded_buffer t = .ok buf ∧ buf.length = PADDED_SIZE t.length ∧
      buf = t.drop 25 ++ List.replicate (PADDED_SIZE t.length - (t.length - 25)) 0 ∧
      (∀ i, i < t.length - 25 → buf[i]? = t[25 + i]?) ∧
      (∀ i, t.length - 25 ≤ i → i < PADDED_SIZE t.length → buf[i]? = some 0) ∧
      (∀ cipher key, ∃ iv, construct_iv t = .ok iv ∧
        main_pipeline cipher key t
          = .ok (vector_resize (cipher key iv buf) FINAL_PAYLOAD_LEN)) := by
  refine ⟨_, padded_buffer_eq t h25 hsize, padded_buffer_length t h25 hsize, rfl, ?_, ?_,
    fun cipher key => main_pipeline_eq cipher key t h25 hsize⟩
  · intro i hi
    rw [List.getElem?_append_left (by simp; omega), List.getElem?_drop]
  · intro i hlo hhi
    rw [List.getElem?_append_right (by simp; omega), List.getElem?_replicate]
    simp only [List.length_drop]
    rw [if_pos (by omega)]

theorem padded_buffer_contents_witness :
    25 ≤ TELEGRAM_SHORT.length ∧ TELEGRAM_SHORT.length < 2 ^ 64 ∧
    padded_buffer TELEGRAM_SHORT
      = .ok [0x89, 0xbe, 0x8d, 0xf3, 0x67, 0x3e, 0xc1, 0x36, 0, 0, 0, 0, 0, 0, 0, 0] ∧
    ∃ buf, padded_buffer TELEGRAM_SHORT = .ok buf ∧
      buf.length = PADDED_SIZE TELEGRAM_SHORT.length ∧
      buf = TELEGRAM_SHORT.drop 25
        ++ List.replicate (PADDED_SIZE TELEGRAM_SHORT.length - (TELEGRAM_SHORT.length - 25)) 0 :=
  have h := padded_buffer_contents TELEGRAM_SHORT (by decide) (by decide)
  ⟨by decide, by decide, rfl, h.elim fun buf hb => ⟨buf, hb.1, hb.2.1, hb.2.2.1⟩⟩

/-- C7: `construct_iv` fails (with "Telegram too short to construct IV.") if and only if the
telegram has fewer than 12 bytes, and succeeds if and only if it has at least 12; the
pipeline stops with that error, before any decryption, exactly for those telegrams. In
particular every 10-byte input fails in this way. -/
theorem construct_iv_fails_iff_short (t : List Byte) :
    (construct_iv t = .error .ivTelegramTooShort ↔ t.length < 12) ∧
    ((∃ e, construct_iv t = .error e) ↔ t.length < 12) ∧
    ((∃ iv, construct_iv t = .ok iv) ↔ 12 ≤ t.length) ∧
    (∀ cipher key, main_pipeline cipher key t = .error .ivTelegramTooShort ↔ t.length < 12) ∧
    (t.length = 10 → construct_iv t = .error .ivTelegramTooShort ∧
      ∀ cipher key, main_pipeline cipher key t = .error .ivTelegramTooShort) := by
  by_cases h : t.length < 12
  · have hiv := construct_iv_short t h
    have hmain : ∀ cipher key, main_pipeline cipher key t = .error .ivTelegramTooShort :=
      fun cipher key => by simp only [main_pipeline, hiv]
    refine ⟨⟨fun _ => h, fun _ => hiv⟩, ⟨fun _ => h, fun _ => ⟨_, hiv⟩⟩, ⟨?_, fun h12 => ?_⟩,
      fun cipher key => ⟨fun _ => h, fun _ => hmain cipher key⟩,
      fun _ => ⟨hiv, hmain⟩⟩
    · rintro ⟨iv, hok⟩
      rw [hiv] at hok
      simp only [reduceCtorEq] at hok
    · omega
  · obtain ⟨iv, hiv, _⟩ := construct_iv_ok t (by omega)
    refine ⟨⟨fun he => ?_, fun h12 => absurd h12 h⟩, ⟨?_, fun h12 => absurd h12 h⟩,
      ⟨fun _ => by omega, fun _ => ⟨iv, hiv⟩⟩, fun cipher key => ⟨fun he => ?_, fun h12 => absurd h12 h⟩,
      fun h10 => by omega⟩
    · rw [hiv] at he
      simp only [reduceCtorEq] at he
    · rintro ⟨e, he⟩
      rw [hiv] at he
      simp only [reduceCtorEq] at he
    · exfalso
      cases hbuf : padded_buffer t with
      | error e =>
        simp only [main_pipeline, hiv, hbuf, Except.error.injEq] at he
        exact padded_buffer_error_ne t (he ▸ hbuf)
      | ok buf => simp only [main_pipeline, hiv, hbuf, reduceCtorEq] at he

theorem construct_iv_fails_iff_short_witness :
    (TELEGRAM_MSG.take 10).length = 10 ∧
    construct_iv (TELEGRAM_MSG.take 10) = .error .ivTelegramTooShort ∧
    ∀ cipher key, main_pipeline cipher key (TELEGRAM_MSG.take 10)
      = .error .ivTelegramTooShort :=
  ⟨rfl, (construct_iv_fails_iff_short (TELEGRAM_MSG.take 10)).2.2.2.2 rfl⟩

/-- C8: for two telegrams of at least 12 bytes, equal IVs imply equal bytes at the indices
2..11; hence telegrams that differ in an access-number byte (index 10 or 11) or in a
device-identity byte (index 2..9) have different IVs. -/
theorem construct_iv_injective_on_header (t1 t2 : List Byte)
    (h1 : 12 ≤ t1.length) (h2 : 12 ≤ t2.length) :
    (construct_iv t1 = construct_iv t2 → ∀ i, 2 ≤ i → i ≤ 11 → t1[i]? = t2[i]?) ∧
    (construct_iv t1 = construct_iv t2 → vector_range t1 2 12 = vector_range t2 2 12) ∧
    ((∃ i, 10 ≤ i ∧ i ≤ 11 ∧ t1[i]? ≠ t2[i]?) → construct_iv t1 ≠ construct_iv t2) ∧
    ((∃ i, 2 ≤ i ∧ i ≤ 9 ∧ t1[i]? ≠ t2[i]?) → construct_iv t1 ≠ construct_iv t2) := by
  refine ⟨fun h i hlo hhi => header_eq_of_iv_eq t1 t2 h1 h2 h i hlo hhi, fun h => ?_, ?_, ?_⟩
  · apply List.ext_getElem?
    intro i
    simp only [vector_range, List.getElem?_take, List.getElem?_drop]
    split
    · exact header_eq_of_iv_eq t1 t2 h1 h2 h (2 + i) (by omega) (by omega)
    · rfl
  · rintro ⟨i, hlo, hhi, hne⟩ h
    exact hne (header_eq_of_iv_eq t1 t2 h1 h2 h i (by omega) hhi)
  · rintro ⟨i, hlo, hhi, hne⟩ h
    exact hne (header_eq_of_iv_eq t1 t2 h1 h2 h i hlo (by omega))

theorem construct_iv_injective_on_header_witness :
    12 ≤ TELEGRAM_MSG.length ∧ 12 ≤ TELEGRAM_NEXT_ACCESS.length ∧
    TELEGRAM_MSG[10]? ≠ TELEGRAM_NEXT_ACCESS[10]? ∧
    construct_iv TELEGRAM_MSG ≠ construct_iv TELEGRAM_NEXT_ACCESS :=
  ⟨by decide, by decide, by decide,
    (construct_iv_injective_on_header TELEGRAM_MSG TELEGRAM_NEXT_ACCESS
      (by decide) (by decide)).2.2.1 ⟨10, by decide, by decide, by decide⟩⟩

/-- C9: for every telegram of at least 12 bytes `construct_iv` succeeds and its result has
exactly 16 bytes (so whenever it succeeds the result has 16 bytes); the cipher in `main` is
therefore only ever initialised with a 16-byte IV: guarding the cipher by a check of the IV
length never changes the outcome of the pipeline. -/
theorem construct_iv_length (t : List Byte) (h12 : 12 ≤ t.length) :
    (∃ iv, construct_iv t = .ok iv ∧ iv.length = 16) ∧
    (∀ iv, construct_iv t = .ok iv → iv.length = 16) ∧
    (∀ cipher key, main_pipeline (iv_checked_cipher cipher) key t
      = main_pipeline cipher key t) := by
  obtain ⟨iv, hiv, hlen⟩ := construct_iv_ok t h12
  refine ⟨⟨iv, hiv, hlen⟩, fun iv2 h2 => ?_, fun cipher key => ?_⟩
  · rw [hiv] at h2
    simp only [Except.ok.injEq] at h2
    rw [← h2]
    exact hlen
  · cases hbuf : padded_buffer t with
    | error e => simp only [main_pipeline, hiv, hbuf]
    | ok buf => simp only [main_pipeline, hiv, hbuf, iv_checked_cipher, hlen, if_true]

theorem construct_iv_length_witness :
    12 ≤ TELEGRAM_NEXT_ACCESS.length ∧
    ∃ iv, construct_iv TELEGRAM_NEXT_ACCESS = .ok iv ∧ iv.length = 16 :=
  ⟨by decide, (construct_iv_length TELEGRAM_NEXT_ACCESS (by decide)).1⟩

/-- C10 (the claim as stated, refuted): the 33-byte telegram `TELEGRAM_SHORT` has a
ciphertext region of 33 - 25 = 8 bytes, and the pipeline returns a payload for it: the
8 bytes of the region followed by 121 zero bytes. -/
theorem short_region_is_decrypted :
    TELEGRAM_SHORT.length - 25 = 8 ∧
    main_pipeline identity_cipher DECRYPTION_KEY TELEGRAM_SHORT
      = .ok ([0x89, 0xbe, 0x8d, 0xf3, 0x67, 0x3e, 0xc1, 0x36] ++ List.replicate 121 0) :=
  ⟨rfl, rfl⟩

/-- C10 (amended): the pipeline has no payload-too-short check. For every telegram of at
least 25 bytes whose ciphertext region len(telegram) - 25 has at most 8 bytes, the pipeline
returns a payload of `FINAL_PAYLOAD_LEN` = 129 bytes, obtained by resizing the decrypted
buffer. -/
theorem short_region_yields_payload
    (cipher : List Byte → List Byte → List Byte → List Byte) (key t : List Byte)
    (h25 : 25 ≤ t.length) (h8 : t.length - 25 ≤ 8) :
    ∃ iv buf p, construct_iv t = .ok iv ∧ padded_buffer t = .ok buf ∧
      main_pipeline cipher key t = .ok p ∧
      p = vector_resize (cipher key iv buf) FINAL_PAYLOAD_LEN ∧ p.length = 129 := by
  have hsize : t.length < 2 ^ 64 := by omega
  obtain ⟨iv, hiv, hmain⟩ := main_pipeline_eq cipher key t h25 hsize
  exact ⟨iv, _, _, hiv, padded_buffer_eq t h25 hsize, hmain, rfl, vector_resize_length _ _⟩

theorem short_region_yields_payload_witness :
    25 ≤ TELEGRAM_SHORT.length ∧ TELEGRAM_SHORT.length - 25 ≤ 8 ∧
    ∃ iv buf p, construct_iv TELEGRAM_SHORT = .ok iv ∧ padded_buffer TELEGRAM_SHORT = .ok buf ∧
      main_pipeline identity_cipher DECRYPTION_KEY TELEGRAM_SHORT = .ok p ∧
      p = vector_resize (identity_cipher DECRYPTION_KEY iv buf) FINAL_PAYLOAD_LEN ∧
      p.length = 129 :=
  ⟨by decide, by decide,
    short_region_yields_payload identity_cipher DECRYPTION_KEY TELEGRAM_SHORT
      (by decide) (by decide)⟩

/-- C11 (the claim as stated, refuted): for the 41-byte telegram `TELEGRAM_ONE_BLOCK` and the
length-preserving `identity_cipher`, the decrypted buffer has 16 bytes and the final payload
has 129 bytes (the buffer followed by 113 zero bytes appended by the resize), so the payload
is not a prefix of the decrypted buffer. -/
theorem one_block_payload_not_a_truncation :
    (∀ k iv buf, (identity_cipher k iv buf).length = buf.length) ∧
    padded_buffer TELEGRAM_ONE_BLOCK
      = .ok [0x89, 0xbe, 0x8d, 0xf3, 0x67, 0x3e, 0xc1, 0x36,
             0xae, 0xbf, 0xb8, 0x0d, 0x4c, 0xe3, 0x95, 0xba] ∧
    main_pipeline identity_cipher DECRYPTION_KEY TELEGRAM_ONE_BLOCK
      = .ok ([0x89, 0xbe, 0x8d, 0xf3, 0x67, 0x3e, 0xc1, 0x36,
              0xae, 0xbf, 0xb8, 0x0d, 0x4c, 0xe3, 0x95, 0xba] ++ List.replicate 113 0) ∧
    ¬ ∃ rest : List Byte,
        identity_cipher DECRYPTION_KEY
            [0x07, 0x70, 0x50, 0x89, 0x85, 0x27, 0x14, 0xC5, 0x20, 0x8C, 0, 0, 0, 0, 0, 0]
            [0x89, 0xbe, 0x8d, 0xf3, 0x67, 0x3e, 0xc1, 0x36,
             0xae, 0xbf, 0xb8, 0x0d, 0x4c, 0xe3, 0x95, 0xba]
          = ([0x89, 0xbe, 0x8d, 0xf3, 0x67, 0x3e, 0xc1, 0x36,
              0xae, 0xbf, 0xb8, 0x0d, 0x4c, 0xe3, 0x95, 0xba] ++ List.replicate 113 0) ++ rest := by
  refine ⟨fun _ _ _ => rfl, rfl, rfl, ?_⟩
  rintro ⟨rest, h⟩
  have hlen := congrArg List.length h
  simp only [identity_cipher, List.length_append, List.length_cons, List.length_nil,
    List.length_replicate] at hlen
  omega

/-- C11 (amended): for every telegram the pipeline accepts, with the AES-CBC decryption
treated as an arbitrary length-preserving function, the final payload is the decrypted
buffer (of `PADDED_SIZE` bytes) resized to 129 bytes. When the telegram has at least 154
bytes it is the 129-byte prefix of the decrypted buffer (only trailing bytes are
discarded); when it has fewer, it is the whole decrypted buffer followed by
129 - `PADDED_SIZE` appended zero bytes. -/
theorem payload_is_resized_decryption
    (cipher : List Byte → List Byte → List Byte → List Byte) (key t p : List Byte)
    (hcipher : ∀ k iv buf, (cipher k iv buf).length = buf.length)
    (hsize : t.length < 2 ^ 64)
    (hacc : main_pipeline cipher key t = .ok p) :
    ∃ iv buf, construct_iv t = .ok iv ∧ padded_buffer t = .ok buf ∧
      (cipher key iv buf).length = PADDED_SIZE t.length ∧
      p = vector_resize (cipher key iv buf) FINAL_PAYLOAD_LEN ∧
      (154 ≤ t.length →
        p = (cipher key iv buf).take 129 ∧ ∃ rest, cipher key iv buf = p ++ rest) ∧
      (t.length < 154 →
        PADDED_SIZE t.length < 129 ∧
        p = cipher key iv buf ++ List.replicate (129 - PADDED_SIZE t.length) 0) := by
  have h25 := main_pipeline_ok_ge cipher key t p hacc
  obtain ⟨iv, hiv, hmain⟩ := main_pipeline_eq cipher key t h25 hsize
  have hP := PADDED_SIZE_eq t.length h25 hsize
  have hd := hcipher key iv
    (t.drop 25 ++ List.replicate (PADDED_SIZE t.length - (t.length - 25)) 0)
  rw [padded_buffer_length t h25 hsize] at hd
  rw [hmain] at hacc
  simp only [Except.ok.injEq] at hacc
  refine ⟨iv, _, hiv, padded_buffer_eq t h25 hsize, hd, hacc.symm, ?_, ?_⟩
  · intro h154
    have hge : FINAL_PAYLOAD_LEN ≤ (cipher key iv
        (t.drop 25 ++ List.replicate (PADDED_SIZE t.length - (t.length - 25)) 0)).length := by
      rw [hd, hP]
      simp only [FINAL_PAYLOAD_LEN]
      omega
    have hp : p = (cipher key iv
        (t.drop 25 ++ List.replicate (PADDED_SIZE t.length - (t.length - 25)) 0)).take 129 := by
      rw [← hacc, vector_resize, if_pos hge]
      rfl
    refine ⟨hp, ⟨(cipher key iv
        (t.drop 25 ++ List.replicate (PADDED_SIZE t.length - (t.length - 25)) 0)).drop 129, ?_⟩⟩
    rw [hp, List.take_append_drop]
  · intro h154
    have hlt : PADDED_SIZE t.length < 129 := by
      rw [hP]
      omega
    refine ⟨hlt, ?_⟩
    rw [← hacc, vector_resize, if_neg (by rw [hd]; simp only [FINAL_PAYLOAD_LEN]; omega), hd]
    rfl

theorem payload_is_resized_decryption_witness :
    (∀ k iv buf, (identity_cipher k iv buf).length = buf.length) ∧
    TELEGRAM_MSG.length < 2 ^ 64 ∧
    main_pipeline identity_cipher DECRYPTION_KEY TELEGRAM_MSG
      = .ok ((TELEGRAM_MSG.drop 25).take 129) ∧
    ∃ iv buf, construct_iv TELEGRAM_MSG = .ok iv ∧ padded_buffer TELEGRAM_MSG = .ok buf ∧
      (identity_cipher DECRYPTION_KEY iv buf).length = PADDED_SIZE TELEGRAM_MSG.length ∧
      (TELEGRAM_MSG.drop 25).take 129
        = vector_resize (identity_cipher DECRYPTION_KEY iv buf) FINAL_PAYLOAD_LEN :=
  have h := payload_is_resized_decryption identity_cipher DECRYPTION_KEY TELEGRAM_MSG
    ((TELEGRAM_MSG.drop 25).take 129) (fun _ _ _ => rfl) (by decide) rfl
  ⟨fun _ _ _ => rfl, by decide, rfl,
    h.elim fun iv h2 => h2.elim fun buf hb => ⟨iv, buf, hb.1, hb.2.1, hb.2.2.1, hb.2.2.2.1⟩⟩

/-- C12 (the claim as stated, refuted): the 12-byte telegram `TELEGRAM_HEADER_ONLY` gets past
IV construction, but its computed `ENCRYPTED_DATA_LEN` is 18446744073709551603, which is
neither the mathematical value 12 - 25 nor the number of bytes present from index 25 on
(there are none). -/
theorem header_only_region_length_wraps :
    12 ≤ TELEGRAM_HEADER_ONLY.length ∧
    construct_iv TELEGRAM_HEADER_ONLY
      = .ok [0x07, 0x70, 0x50, 0x89, 0x85, 0x27, 0x14, 0xC5, 0x20, 0x8C, 0, 0, 0, 0, 0, 0] ∧
    ENCRYPTED_DATA_LEN TELEGRAM_HEADER_ONLY.length = 18446744073709551603 ∧
    (ENCRYPTED_DATA_LEN TELEGRAM_HEADER_ONLY.length : Int)
      ≠ (TELEGRAM_HEADER_ONLY.length : Int) - 25 ∧
    ENCRYPTED_DATA_LEN TELEGRAM_HEADER_ONLY.length
      ≠ (TELEGRAM_HEADER_ONLY.drop ENCRYPTED_DATA_START).length :=
  ⟨by decide, rfl, rfl, by decide, by decide⟩

/-- C12 (amended): for every telegram of at least 25 bytes (it gets past IV construction)
the ciphertext region starts at the fixed offset 25 and `ENCRYPTED_DATA_LEN` equals the
mathematical value len(telegram) - 25, the number of bytes present in the telegram from
index 25 to its end; the range copied by `main` is exactly that part of the telegram. -/
theorem region_length_from_offset (t : List Byte)
    (h25 : 25 ≤ t.length) (hsize : t.length < 2 ^ 64) :
    (∃ iv, construct_iv t = .ok iv) ∧
    ENCRYPTED_DATA_START = 25 ∧
    ENCRYPTED_DATA_LEN t.length = t.length - 25 ∧
    (ENCRYPTED_DATA_LEN t.length : Int) = (t.length : Int) - 25 ∧
    ENCRYPTED_DATA_LEN t.length = (t.drop ENCRYPTED_DATA_START).length ∧
    vector_range t ENCRYPTED_DATA_START (ENCRYPTED_DATA_START + ENCRYPTED_DATA_LEN t.length)
      = t.drop ENCRYPTED_DATA_START := by
  have hL := ENCRYPTED_DATA_LEN_eq t.length h25 hsize
  obtain ⟨iv, hiv, _⟩ := construct_iv_ok t (by omega)
  refine ⟨⟨iv, hiv⟩, rfl, hL, ?_, ?_, ?_⟩
  · rw [hL]
    omega
  · rw [hL, List.length_drop]
    rfl
  · rw [hL]
    unfold vector_range
    apply List.take_of_length_le
    rw [List.length_drop]
    simp only [ENCRYPTED_DATA_START]
    omega

theorem region_length_from_offset_witness :
    25 ≤ TELEGRAM_ONE_BLOCK.length ∧ TELEGRAM_ONE_BLOCK.length < 2 ^ 64 ∧
    ENCRYPTED_DATA_LEN TELEGRAM_ONE_BLOCK.length = TELEGRAM_ONE_BLOCK.length - 25 ∧
    ENCRYPTED_DATA_LEN TELEGRAM_ONE_BLOCK.length
      = (TELEGRAM_ONE_BLOCK.drop ENCRYPTED_DATA_START).length :=
  have h := region_length_from_offset TELEGRAM_ONE_BLOCK (by decide) (by decide)
  ⟨by decide, by decide, h.2.2.1, h.2.2.2.2.1⟩

/-- C13 (the claim as stated, refuted): the 40-byte telegram `TELEGRAM_BELOW_BLOCK` is
shorter than 25 + 16 = 41 bytes, yet the pipeline does not reject it: it returns the 15
bytes of the ciphertext region followed by 114 zero bytes. -/
theorem below_block_is_decrypted :
    TELEGRAM_BELOW_BLOCK.length = 40 ∧ TELEGRAM_BELOW_BLOCK.length < 25 + 16 ∧
    main_pipeline identity_cipher DECRYPTION_KEY TELEGRAM_BELOW_BLOCK
      = .ok ([0x89, 0xbe, 0x8d, 0xf3, 0x67, 0x3e, 0xc1, 0x36,
              0xae, 0xbf, 0xb8, 0x0d, 0x4c, 0xe3, 0x95] ++ List.replicate 114 0) :=
  ⟨rfl, by decide, rfl⟩

/-- C13 (amended): every raw buffer shorter than 12 bytes is rejected with the too-short
error of `construct_iv` and is never decrypted; a buffer of 25 to 40 bytes is not rejected:
it is decrypted and a payload of 129 bytes is returned. -/
theorem short_frames_outcome (t : List Byte) :
    (t.length < 12 → construct_iv t = .error .ivTelegramTooShort ∧
      ∀ cipher key, main_pipeline cipher key t = .error .ivTelegramTooShort) ∧
    (25 ≤ t.length → t.length < 41 →
      ∀ cipher key, ∃ p, main_pipeline cipher key t = .ok p ∧ p.length = 129) := by
  constructor
  · intro h
    have hiv := construct_iv_short t h
    exact ⟨hiv, fun cipher key => by simp only [main_pipeline, hiv]⟩
  · intro h25 h41 cipher key
    obtain ⟨iv, _, hmain⟩ := main_pipeline_eq cipher key t h25 (by omega)
    exact ⟨_, hmain, vector_resize_length _ _⟩

theorem short_frames_outcome_witness :
    ((TELEGRAM_MSG.take 10).length < 12 ∧
      construct_iv (TELEGRAM_MSG.take 10) = .error .ivTelegramTooShort ∧
      ∀ cipher key, main_pipeline cipher key (TELEGRAM_MSG.take 10)
        = .error .ivTelegramTooShort) ∧
    (25 ≤ TELEGRAM_BELOW_BLOCK.length ∧ TELEGRAM_BELOW_BLOCK.length < 41 ∧
      ∀ cipher key, ∃ p, main_pipeline cipher key TELEGRAM_BELOW_BLOCK = .ok p ∧
        p.length = 129) :=
  ⟨⟨by decide, (short_frames_outcome (TELEGRAM_MSG.take 10)).1 (by decide)⟩,
    ⟨by decide, by decide,
      (short_frames_outcome TELEGRAM_BELOW_BLOCK).2 (by decide) (by decide)⟩⟩

/-- C14: the IV is a function of the bytes 2..11 alone: two telegrams of at least 12 bytes
that agree on the bytes at the indices 2..11 have the same IV, whatever their L-field,
C-field, remaining bytes and total lengths are. -/
theorem construct_iv_depends_on_header_only (t1 t2 : List Byte)
    (h1 : 12 ≤ t1.length) (h2 : 12 ≤ t2.length)
    (h : ∀ i, 2 ≤ i → i ≤ 11 → t1[i]? = t2[i]?) :
    construct_iv t1 = construct_iv t2 ∧ ∃ iv, construct_iv t1 = .ok iv :=
  ⟨iv_eq_of_header_eq t1 t2 h1 h2 h,
    (construct_iv_ok t1 h1).elim fun iv hiv => ⟨iv, hiv.1⟩⟩

theorem construct_iv_depends_on_header_only_witness :
    12 ≤ TELEGRAM_MSG.length ∧ 12 ≤ TELEGRAM_SAME_HEADER.length ∧
    TELEGRAM_MSG.length ≠ TELEGRAM_SAME_HEADER.length ∧
    TELEGRAM_MSG[0]? ≠ TELEGRAM_SAME_HEADER[0]? ∧
    TELEGRAM_MSG[1]? ≠ TELEGRAM_SAME_HEADER[1]? ∧
    TELEGRAM_MSG[12]? ≠ TELEGRAM_SAME_HEADER[12]? ∧
    (construct_iv TELEGRAM_MSG = construct_iv TELEGRAM_SAME_HEADER ∧
      ∃ iv, construct_iv TELEGRAM_MSG = .ok iv) :=
  ⟨by decide, by decide, by decide, by decide, by decide, by decide,
    construct_iv_depends_on_header_only TELEGRAM_MSG TELEGRAM_SAME_HEADER
      (by decide) (by decide) (fun i hlo hhi => by interval_cases i <;> rfl)⟩

/-- C15 (the claim as stated, refuted): the telegram `TELEGRAM_HEADER_ONLY` has exactly 12
bytes and `construct_iv` succeeds on it. -/
theorem twelve_bytes_suffice :
    TELEGRAM_HEADER_ONLY.length = 12 ∧ TELEGRAM_HEADER_ONLY.length ≤ 12 ∧
    construct_iv TELEGRAM_HEADER_ONLY
      = .ok [0x07, 0x70, 0x50, 0x89, 0x85, 0x27, 0x14, 0xC5, 0x20, 0x8C, 0, 0, 0, 0, 0, 0] :=
  ⟨rfl, by decide, rfl⟩

/-- C15 (amended): header extraction succeeds exactly for telegrams of at least 12 bytes:
for every telegram with len(telegram) < 12 `construct_iv` fails, and for every telegram with
len(telegram) >= 12, including one of exactly 12 bytes, it succeeds. -/
theorem construct_iv_threshold (t : List Byte) :
    (t.length < 12 → construct_iv t = .error .ivTelegramTooShort) ∧
    (12 ≤ t.length → ∃ iv, construct_iv t = .ok iv ∧ iv.length = 16) ∧
    (t.length = 12 → ∃ iv, construct_iv t = .ok iv ∧ iv.length = 16) :=
  ⟨fun h => construct_iv_short t h, fun h => construct_iv_ok t h,
    fun h => construct_iv_ok t (by omega)⟩

theorem construct_iv_threshold_witness :
    (TELEGRAM_HEADER_ONLY.length = 12 ∧
      ∃ iv, construct_iv TELEGRAM_HEADER_ONLY = .ok iv ∧ iv.length = 16) ∧
    ((TELEGRAM_HEADER_ONLY.take 11).length < 12 ∧
      construct_iv (TELEGRAM_HEADER_ONLY.take 11) = .error .ivTelegramTooShort) :=
  ⟨⟨rfl, (construct_iv_threshold TELEGRAM_HEADER_ONLY).2.2 rfl⟩,
    ⟨by decide, (construct_iv_threshold (TELEGRAM_HEADER_ONLY.take 11)).1 (by decide)⟩⟩

/-- C16: the right-hand side of the truncation guard, 25 + `ENCRYPTED_DATA_LEN` in 64-bit
unsigned arithmetic, equals the telegram size modulo 2^64; the guard
telegram.size() >= 25 + `ENCRYPTED_DATA_LEN` is therefore true for every telegram, and the
"Telegram is truncated" branch is never taken: neither step 2 nor the pipeline ever ends in
that error. -/
theorem truncation_guard_always_true (t : List Byte) :
    size_add ENCRYPTED_DATA_START (ENCRYPTED_DATA_LEN t.length) = t.length % 2 ^ 64 ∧
    t.length ≥ size_add ENCRYPTED_DATA_START (ENCRYPTED_DATA_LEN t.length) ∧
    padded_buffer t ≠ .error .telegramTruncated ∧
    ∀ cipher key, main_pipeline cipher key t ≠ .error .telegramTruncated := by
  refine ⟨guard_sum_eq t.length, guard_holds t.length, padded_buffer_not_truncated t, ?_⟩
  intro cipher key hmain
  by_cases h : t.length < 12
  · simp only [main_pipeline, construct_iv_short t h, Except.error.injEq, reduceCtorEq] at hmain
  · obtain ⟨iv, hiv, _⟩ := construct_iv_ok t (by omega)
    cases hbuf : padded_buffer t with
    | error e =>
      simp only [main_pipeline, hiv, hbuf, Except.error.injEq] at hmain
      exact padded_buffer_not_truncated t (hmain ▸ hbuf)
    | ok buf => simp only [main_pipeline, hiv, hbuf, reduceCtorEq] at hmain

/-- C17: for every telegram with 12 <= len(telegram) <= 24, `construct_iv` succeeds, the
64-bit subtraction telegram.size() - 25 wraps to 2^64 - (25 - len(telegram)), and
`PADDED_SIZE` is 0: the decryption buffer is empty and strictly smaller than the computed
ciphertext length, and the start index 25 of the copy lies beyond the end of the telegram
(so the range given to `std::copy` is not a range of the telegram). -/
theorem short_telegram_wraps (t : List Byte) (h12 : 12 ≤ t.length) (h24 : t.length ≤ 24) :
    (∃ iv, construct_iv t = .ok iv) ∧
    ENCRYPTED_DATA_LEN t.length = 2 ^ 64 - (25 - t.length) ∧
    PADDED_SIZE t.length = 0 ∧
    vector_fill (PADDED_SIZE t.length) = [] ∧
    (vector_fill (PADDED_SIZE t.length)).length < ENCRYPTED_DATA_LEN t.length ∧
    t.length < ENCRYPTED_DATA_START ∧
    padded_buffer t = .error .invalidCopyRange := by
  have hL := ENCRYPTED_DATA_LEN_wrap t.length (by omega)
  have hP := PADDED_SIZE_wrap t.length h12 (by omega)
  obtain ⟨iv, hiv, _⟩ := construct_iv_ok t h12
  refine ⟨⟨iv, hiv⟩, hL, hP, ?_, ?_, ?_, padded_buffer_below_start t (by omega)⟩
  · rw [hP]
    rfl
  · rw [hP, hL]
    simp only [vector_fill, List.length_replicate]
    omega
  · simp only [ENCRYPTED_DATA_START]
    omega

theorem short_telegram_wraps_witness :
    12 ≤ TELEGRAM_NO_REGION.length ∧ TELEGRAM_NO_REGION.length ≤ 24 ∧
    ENCRYPTED_DATA_LEN TELEGRAM_NO_REGION.length = 2 ^ 64 - (25 - TELEGRAM_NO_REGION.length) ∧
    PADDED_SIZE TELEGRAM_NO_REGION.length = 0 ∧
    padded_buffer TELEGRAM_NO_REGION = .error .invalidCopyRange :=
  have h := short_telegram_wraps TELEGRAM_NO_REGION (by decide) (by decide)
  ⟨by decide, by decide, h.2.1, h.2.2.1, h.2.2.2.2.2.2⟩

end WMBus
